import Mathlib

/-!
Verification of the semantic-outline converter (`src/main.rs`).

The development shallowly embeds the per-file conversion pipeline:
string heuristics for display names, the recursive tree normalizer
`walk_tree`, the per-file driver logic of `main`, and the JSON
(de)serialization of the produced outline.  Machine integers (`i32`
casts) are modelled on `Int` with explicit wrapping; fallible code
(Rust `Result`, panics, `unwrap`, `unreachable!`) is modelled with
`Option`, a panic mapping to `none`.
-/

namespace SemanticMerge

/-- The Unicode code points with the White_Space property, which is the
character class used by Rust's `str::split_whitespace`. -/
def rust_is_whitespace (c : Char) : Bool :=
  c.toNat = 0x09 || c.toNat = 0x0A || c.toNat = 0x0B || c.toNat = 0x0C ||
  c.toNat = 0x0D || c.toNat = 0x20 || c.toNat = 0x85 || c.toNat = 0xA0 ||
  c.toNat = 0x1680 || (0x2000 ≤ c.toNat && c.toNat ≤ 0x200A) ||
  c.toNat = 0x2028 || c.toNat = 0x2029 || c.toNat = 0x202F ||
  c.toNat = 0x205F || c.toNat = 0x3000

/-- Test whether `pat` is an initial segment of `l`. -/
def leads_with : List Char → List Char → Bool
  | [], _ => true
  | _ :: _, [] => false
  | p :: ps, c :: cs => p = c && leads_with ps cs

/-- Fueled scan for Rust `str::replace`: leftmost, non-overlapping
replacement of every occurrence of `pat` by `rep`.  The fuel is the
length of the scanned list; each step consumes at least one character
whenever `pat` is nonempty (all patterns in this program are). -/
def replace_aux (pat rep : List Char) : Nat → List Char → List Char
  | 0, l => l
  | _ + 1, [] => []
  | fuel + 1, c :: rest =>
    if leads_with pat (c :: rest) then
      rep ++ replace_aux pat rep fuel ((c :: rest).drop pat.length)
    else
      c :: replace_aux pat rep fuel rest

/-- Rust `str::replace` on `String`s (for nonempty patterns). -/
def rust_replace (s pat rep : String) : String :=
  String.mk (replace_aux pat.data rep.data s.data.length s.data)

/-- Scan of Rust `str::contains` for a literal pattern. -/
def sub_scan (pat : List Char) : List Char → Bool
  | [] => leads_with pat []
  | c :: rest => leads_with pat (c :: rest) || sub_scan pat rest

/-- Rust `str::contains` with a literal `&str` pattern. -/
def contains_sub (s pat : String) : Bool :=
  sub_scan pat.data s.data

/-- The chain of `replace` calls applied to a node's text before a name
is extracted (`main.rs`, `walk_tree`): each of the characters
`{ } ( ) : # [ ]` and each of the literal substrings `fn`, `struct`,
`enum`, `pub` becomes a space, in this order. -/
def strip_name_text (s : String) : String :=
  rust_replace (rust_replace (rust_replace (rust_replace (rust_replace
    (rust_replace (rust_replace (rust_replace (rust_replace (rust_replace
      (rust_replace (rust_replace s "\x7b" " ") "\x7d" " ") "(" " ")
        ")" " ") ":" " ") "#" " ") "[" " ") "]" " ") "fn" " ")
          "struct" " ") "enum" " ") "pub" " "

/-- Characters of `l` before the first whitespace character. -/
def take_tok : List Char → List Char
  | [] => []
  | c :: r => if rust_is_whitespace c then [] else c :: take_tok r

/-- Drop the leading whitespace characters of `l`. -/
def drop_ws : List Char → List Char
  | [] => []
  | c :: r => if rust_is_whitespace c then drop_ws r else c :: r

/-- Rust `str::split_whitespace().next()`: the first maximal run of
non-whitespace characters, if any. -/
def first_token (s : String) : Option String :=
  match drop_ws s.data with
  | [] => none
  | c :: r => some (String.mk (c :: take_tok r))

/-- Split a character list at every character satisfying `p`, keeping
empty pieces (the semantics of `str::split`). -/
def split_any (p : Char → Bool) : List Char → List (List Char)
  | [] => [[]]
  | c :: r =>
    if p c then [] :: split_any p r
    else
      match split_any p r with
      | [] => [[c]]
      | g :: gs => (c :: g) :: gs

/-- The spec's description of taking a display name: split the stripped
text on whitespace and return the first non-empty token. -/
def spec_first_token (s : String) : Option String :=
  (((split_any rust_is_whitespace s.data).filter (fun t => t ≠ [])).head?).map
    (fun l => String.mk l)

/-- The name heuristic inside `walk_tree`: for kinds containing
`"identifier"` or `"item"`, strip punctuation and keywords and take the
first whitespace-separated token (`None` models the
`anyhow::anyhow!("Failed")` error); otherwise the kind itself. -/
def extract_name (kind text : String) : Option String :=
  if contains_sub kind "identifier" || contains_sub kind "item" then
    first_token (strip_name_text text)
  else
    some kind

/-- Rust `as i32` cast from an unsigned value: wrap into
`[-2^31, 2^31)`. -/
def to_i32 (n : Nat) : Int :=
  if n % 2 ^ 32 < 2 ^ 31 then ((n % 2 ^ 32 : Nat) : Int)
  else ((n % 2 ^ 32 : Nat) : Int) - 2 ^ 32

/-- A parser position (`tree_sitter::Point`): 0-based row and column. -/
structure TSPoint where
  row : Nat
  column : Nat

/-- Model of `convert_point` from `main.rs`: 1-based row, 0-based column. -/
def convert_point (p : TSPoint) : Int × Int :=
  (to_i32 p.row + 1, to_i32 p.column)

mutual
/-- A raw parse-tree node as the program consumes it: kind label, the
source text slice of its byte range (`utf8_text ... unwrap_or("")`),
start/end positions, start/end byte offsets, and its named children. -/
inductive RawNode where
  | mk (kind text : String) (start_pos end_pos : TSPoint)
      (start_byte end_byte : Nat) (children : RawForest)

/-- The list of named children of a raw node. -/
inductive RawForest where
  | nil
  | cons (hd : RawNode) (tl : RawForest)
end

def RawNode.kind : RawNode → String
  | .mk k _ _ _ _ _ _ => k

def RawNode.text : RawNode → String
  | .mk _ t _ _ _ _ _ => t

def RawNode.start_pos : RawNode → TSPoint
  | .mk _ _ s _ _ _ _ => s

def RawNode.end_pos : RawNode → TSPoint
  | .mk _ _ _ e _ _ _ => e

def RawNode.start_byte : RawNode → Nat
  | .mk _ _ _ _ b _ _ => b

def RawNode.end_byte : RawNode → Nat
  | .mk _ _ _ _ _ b _ => b

def RawNode.children : RawNode → RawForest
  | .mk _ _ _ _ _ _ cs => cs

/-- Rust `named_child_count`. -/
def RawForest.length : RawForest → Nat
  | .nil => 0
  | .cons _ tl => tl.length + 1

def RawForest.toList : RawForest → List RawNode
  | .nil => []
  | .cons hd tl => hd :: tl.toList

mutual
/-- The serialized outline node (`enum Node` in `main.rs`): either a
`Container` (kind, name, location span, header span, footer span,
children) or a `Terminal` (kind, name, location span, span).  A
location span is a (start, end) pair of (line, column) pairs; a char
span is a (start, end) pair of byte offsets. -/
inductive Node where
  | Container (item_type name : String)
      (location_span : (Int × Int) × (Int × Int))
      (header_span footer_span : Int × Int) (children : Forest)
  | Terminal (item_type name : String)
      (location_span : (Int × Int) × (Int × Int)) (span : Int × Int)

/-- The child vector `Vec<Node>`. -/
inductive Forest where
  | nil
  | cons (hd : Node) (tl : Forest)
end

def Forest.toList : Forest → List Node
  | .nil => []
  | .cons hd tl => hd :: tl.toList

def Forest.length : Forest → Nat
  | .nil => 0
  | .cons _ tl => tl.length + 1

mutual
/-- Model of `walk_tree` from `main.rs`: extract a name (failure propagates as
`none`), then build a `Terminal` when the named-child count is zero and
a `Container` otherwise, keeping exactly the children whose own
normalization succeeded. -/
def walk_tree : RawNode → Option Node
  | .mk kind text sp ep sb eb children =>
    match extract_name kind text with
    | none => none
    | some name =>
      if children.length = 0 then
        some (.Terminal kind name (convert_point sp, convert_point ep)
          (to_i32 sb, to_i32 eb))
      else
        some (.Container kind name (convert_point sp, convert_point ep)
          (to_i32 sb, to_i32 eb) (0, -1) (walk_children children))

/-- The child loop of `walk_tree`: normalize each named child in source
order and push only the successful results. -/
def walk_children : RawForest → Forest
  | .nil => .nil
  | .cons hd tl =>
    match walk_tree hd with
    | some child => .cons child (walk_children tl)
    | none => walk_children tl
end

/-- Model of `struct SemanticFile` from `main.rs`. -/
structure SemanticFile where
  item_type : String
  name : String
  location_span : (Int × Int) × (Int × Int)
  footer_span : Int × Int
  parsing_errors_detected : Bool
  children : Forest
  parsing_error : Option Unit

/-- Strip one trailing carriage return, as Rust `str::lines` does on
each produced line. -/
def strip_cr (l : List Char) : List Char :=
  if l.getLast? = some '\r' then l.dropLast else l

/-- Drop the final piece of a split when it is empty (the
split-terminator behaviour of `str::lines` on a trailing newline). -/
def drop_last_empty (ls : List (List Char)) : List (List Char) :=
  match ls.reverse with
  | [] :: rest => rest.reverse
  | _ => ls

/-- Rust `str::lines`: split on newline, treat the newline as a
terminator, and strip one trailing carriage return per line. -/
def rust_lines (s : String) : List String :=
  (drop_last_empty (split_any (fun c => c = '\n') s.data)).map
    (fun l => String.mk (strip_cr l))

/-- UTF-8 byte count of one character. -/
def char_utf8_size (c : Char) : Nat :=
  if c.toNat < 128 then 1
  else if c.toNat < 2048 then 2
  else if c.toNat < 65536 then 3
  else 4

/-- Rust `str::len`: the UTF-8 byte length. -/
def utf8_len (s : String) : Nat :=
  (s.data.map char_utf8_size).sum

/-- The per-file conversion performed in the body of `main` once the
input text has been read and parsed (lines 98-197 of `main.rs`): compute
the line count and the byte length of the last line (`.last().unwrap()`
panics on an empty text), normalize the root node (`.unwrap()` panics on
failure), require the result to be a `Container` (`unreachable!()`
otherwise), and promote its children into the `SemanticFile`.  A panic
is modelled as `none`. -/
def convert_file (input_path file_contents : String) (tree : RawNode) :
    Option SemanticFile :=
  match (rust_lines file_contents).getLast? with
  | none => none
  | some last_line =>
    let line_count := (rust_lines file_contents).length
    let last_pos := utf8_len last_line
    match walk_tree tree with
    | none => none
    | some (.Terminal _ _ _ _) => none
    | some (.Container _ _ _ _ _ cs) =>
      some
        { item_type := "file"
          name := input_path
          location_span := ((1, 0), (to_i32 line_count, to_i32 last_pos))
          footer_span := (0, -1)
          parsing_errors_detected := false
          children := cs
          parsing_error := none }

mutual
/-- A JSON document, as produced and consumed by `serde_json` for this
program's data (all numbers in the outline are integers). -/
inductive Json where
  | null
  | bool (b : Bool)
  | num (n : Int)
  | str (s : String)
  | arr (elems : JsonArr)
  | obj (fields : JsonObj)

/-- A JSON array. -/
inductive JsonArr where
  | nil
  | cons (hd : Json) (tl : JsonArr)

/-- A JSON object: an ordered field list. -/
inductive JsonObj where
  | nil
  | cons (key : String) (val : Json) (tl : JsonObj)
end

mutual
def jsize : Json → Nat
  | .null | .bool _ | .num _ | .str _ => 1
  | .arr xs => jasize xs + 1
  | .obj fs => josize fs + 1

def jasize : JsonArr → Nat
  | .nil => 1
  | .cons hd tl => jsize hd + jasize tl + 1

def josize : JsonObj → Nat
  | .nil => 1
  | .cons _ v tl => jsize v + josize tl + 1
end

/-- Field lookup in a JSON object (first occurrence). -/
def j_lookup : JsonObj → String → Option Json
  | .nil, _ => none
  | .cons k v tl, key => if k = key then some v else j_lookup tl key

theorem j_lookup_size {key : String} {v : Json} :
    ∀ (fs : JsonObj), j_lookup fs key = some v → jsize v < josize fs
  | .nil, h => by simp [j_lookup] at h
  | .cons k w tl, h => by
    rw [j_lookup] at h
    split at h
    · cases h
      simp [josize]
      omega
    · have := j_lookup_size tl h
      simp [josize]
      omega

/-- Serialization of a `CharSpan` (`#[serde(transparent)]` over
`[i32; 2]`): a two-element array. -/
def span_json (sp : Int × Int) : Json :=
  .arr (.cons (.num sp.1) (.cons (.num sp.2) .nil))

/-- Serialization of a `LocationSpan`: an object with `start` and `end`
fields, each an `[i32; 2]` array. -/
def loc_json (ls : (Int × Int) × (Int × Int)) : Json :=
  .obj (.cons "start" (span_json ls.1) (.cons "end" (span_json ls.2) .nil))

/-- The serialized field list of a `Container`, in declaration order
with camelCase renaming. -/
def container_fields (t n : String) (ls : (Int × Int) × (Int × Int))
    (hs fs : Int × Int) (cj : JsonArr) : JsonObj :=
  .cons "type" (.str t) (.cons "name" (.str n)
    (.cons "locationSpan" (loc_json ls) (.cons "headerSpan" (span_json hs)
      (.cons "footerSpan" (span_json fs)
        (.cons "children" (.arr cj) .nil)))))

/-- The serialized field list of a `Terminal`, in declaration order
with camelCase renaming. -/
def terminal_fields (t n : String) (ls : (Int × Int) × (Int × Int))
    (sp : Int × Int) : JsonObj :=
  .cons "type" (.str t) (.cons "name" (.str n)
    (.cons "locationSpan" (loc_json ls) (.cons "span" (span_json sp) .nil)))

mutual
/-- serde serialization of `Node`: untagged, so a `Container` or
`Terminal` serializes as the object of its own camelCase-renamed
fields, in declaration order. -/
def node_to_json : Node → Json
  | .Container t n ls hs fs cs =>
    .obj (container_fields t n ls hs fs (forest_to_json cs))
  | .Terminal t n ls sp => .obj (terminal_fields t n ls sp)

def forest_to_json : Forest → JsonArr
  | .nil => .nil
  | .cons hd tl => .cons (node_to_json hd) (forest_to_json tl)
end

/-- The serialized field list of a `SemanticFile`. -/
def file_fields (t n : String) (ls : (Int × Int) × (Int × Int))
    (fsp : Int × Int) (ped : Bool) (cj : JsonArr) : JsonObj :=
  .cons "type" (.str t) (.cons "name" (.str n)
    (.cons "locationSpan" (loc_json ls)
      (.cons "footerSpan" (span_json fsp)
        (.cons "parsingErrorsDetected" (.bool ped)
          (.cons "children" (.arr cj)
            (.cons "parsingError" Json.null .nil))))))

/-- serde serialization of `SemanticFile`: camelCase field names in
declaration order; the `Option<()>` field serializes as `null` whether
it is `None` or `Some(())`, since `()` itself serializes as `null`. -/
def file_to_json (f : SemanticFile) : Json :=
  .obj (file_fields f.item_type f.name f.location_span f.footer_span
    f.parsing_errors_detected (forest_to_json f.children))

/-- Whether an integer fits in `i32`, the range check serde performs
when deserializing an `i32` from a JSON number. -/
def in_i32 (n : Int) : Bool :=
  decide (-(2 ^ 31) ≤ n) && decide (n < 2 ^ 31)

/-- Deserialize an `[i32; 2]`: exactly two integer elements in range. -/
def dec_span (j : Json) : Option (Int × Int) :=
  match j with
  | .arr (.cons (.num a) (.cons (.num b) .nil)) =>
    if in_i32 a && in_i32 b then some (a, b) else none
  | _ => none

def dec_str : Json → Option String
  | .str s => some s
  | _ => none

def dec_bool : Json → Option Bool
  | .bool b => some b
  | _ => none

/-- Deserialize a `LocationSpan`: an object supplying `start` and `end`
(extra fields ignored, as serde does by default). -/
def dec_loc (j : Json) : Option ((Int × Int) × (Int × Int)) :=
  match j with
  | .obj fs =>
    match j_lookup fs "start", j_lookup fs "end" with
    | some s, some e =>
      match dec_span s, dec_span e with
      | some a, some b => some (a, b)
      | _, _ => none
    | _, _ => none
  | _ => none

/-- The `Container` arm of the untagged `Node` deserializer, given the
already-deserialized children. -/
def try_container (fs : JsonObj) (ocs : Option Forest) : Option Node :=
  match j_lookup fs "type", j_lookup fs "name", j_lookup fs "locationSpan",
      j_lookup fs "headerSpan", j_lookup fs "footerSpan", ocs with
  | some ty, some nm, some ls, some hs, some fsp, some cs =>
    match dec_str ty, dec_str nm, dec_loc ls, dec_span hs, dec_span fsp with
    | some t, some n, some l, some h2, some f2 =>
      some (.Container t n l h2 f2 cs)
    | _, _, _, _, _ => none
  | _, _, _, _, _, _ => none

/-- The `Terminal` arm of the untagged `Node` deserializer. -/
def try_terminal (fs : JsonObj) : Option Node :=
  match j_lookup fs "type", j_lookup fs "name", j_lookup fs "locationSpan",
      j_lookup fs "span" with
  | some ty, some nm, some ls, some sp =>
    match dec_str ty, dec_str nm, dec_loc ls, dec_span sp with
    | some t, some n, some l, some s2 => some (.Terminal t n l s2)
    | _, _, _, _ => none
  | _, _, _, _ => none

mutual
/-- serde deserialization of the untagged `Node`: try the `Container`
variant first (declaration order), then the `Terminal` variant. -/
def decode_node (j : Json) : Option Node :=
  match j with
  | .obj fs =>
    match h : j_lookup fs "children" with
    | some (.arr xs) =>
      match try_container fs (decode_arr xs) with
      | some n => some n
      | none => try_terminal fs
    | some _ => try_terminal fs
    | none => try_terminal fs
  | _ => none
termination_by jsize j
decreasing_by
  have h1 := j_lookup_size _ h
  simp [jsize, jasize] at h1 ⊢
  omega

/-- Deserialize every element of a JSON array as a `Node`; any element
failure fails the whole array. -/
def decode_arr (xs : JsonArr) : Option Forest :=
  match xs with
  | .nil => some .nil
  | .cons hd tl =>
    match decode_node hd, decode_arr tl with
    | some n, some f => some (.cons n f)
    | _, _ => none
termination_by jasize xs
decreasing_by
  · simp [jasize]
    omega
  · simp [jasize]
    omega
end

/-- serde deserialization of `SemanticFile`.  The `Option<()>` field is
optional (missing means `None`) and only `null` deserializes into it. -/
def decode_file (j : Json) : Option SemanticFile :=
  match j with
  | .obj fs =>
    match j_lookup fs "type", j_lookup fs "name", j_lookup fs "locationSpan",
        j_lookup fs "footerSpan", j_lookup fs "parsingErrorsDetected",
        j_lookup fs "children" with
    | some ty, some nm, some ls, some fsp, some ped, some ch =>
      match dec_str ty, dec_str nm, dec_loc ls, dec_span fsp, dec_bool ped,
          (match ch with | .arr xs => decode_arr xs | _ => none) with
      | some t, some n, some l, some f2, some b, some cs =>
        match j_lookup fs "parsingError" with
        | none => some ⟨t, n, l, f2, b, cs, none⟩
        | some .null => some ⟨t, n, l, f2, b, cs, none⟩
        | some _ => none
      | _, _, _, _, _, _ => none
    | _, _, _, _, _, _ => none
  | _ => none

/-- Hex digit for string escapes. -/
def hex_digit (n : Nat) : Char :=
  if n < 10 then Char.ofNat (48 + n) else Char.ofNat (87 + n)

/-- JSON string escaping: quote, backslash, and the control characters,
as `serde_json` emits them. -/
def json_esc (c : Char) : List Char :=
  if c = '"' then ['\\', '"']
  else if c = '\\' then ['\\', '\\']
  else if c = '\n' then ['\\', 'n']
  else if c = '\r' then ['\\', 'r']
  else if c = '\t' then ['\\', 't']
  else if c.toNat = 8 then ['\\', 'b']
  else if c.toNat = 12 then ['\\', 'f']
  else if c.toNat < 32 then
    ['\\', 'u', '0', '0', hex_digit (c.toNat / 16), hex_digit (c.toNat % 16)]
  else [c]

/-- A JSON string literal with escapes. -/
def json_quote (s : String) : String :=
  "\"" ++ String.mk (s.data.foldr (fun c acc => json_esc c ++ acc) []) ++ "\""

def spaces : Nat → String
  | 0 => ""
  | n + 1 => " " ++ spaces n

mutual
/-- A deterministic pretty renderer for JSON documents, modelling
`serde_json::to_string_pretty` (two-space indentation). -/
def render_json : Nat → Json → String
  | _, .null => "null"
  | _, .bool b => if b then "true" else "false"
  | _, .num n => toString n
  | _, .str s => json_quote s
  | _, .arr .nil => "[]"
  | ind, .arr (.cons h t) =>
    "[\n" ++ render_items (ind + 2) (.cons h t) ++ "\n" ++ spaces ind ++ "]"
  | _, .obj .nil => "\x7b\x7d"
  | ind, .obj (.cons k v t) =>
    "\x7b\n" ++ render_fields (ind + 2) (.cons k v t) ++ "\n" ++
      spaces ind ++ "\x7d"

def render_items : Nat → JsonArr → String
  | _, .nil => ""
  | ind, .cons h .nil => spaces ind ++ render_json ind h
  | ind, .cons h (.cons h2 t) =>
    spaces ind ++ render_json ind h ++ ",\n" ++
      render_items ind (.cons h2 t)

def render_fields : Nat → JsonObj → String
  | _, .nil => ""
  | ind, .cons k v .nil =>
    spaces ind ++ json_quote k ++ ": " ++ render_json ind v
  | ind, .cons k v (.cons k2 v2 t) =>
    spaces ind ++ json_quote k ++ ": " ++ render_json ind v ++ ",\n" ++
      render_fields ind (.cons k2 v2 t)
end

/-- Model of `serde_json::to_string_pretty`. -/
def to_string_pretty (j : Json) : String :=
  render_json 0 j

def span_in_range (sp : Int × Int) : Bool :=
  in_i32 sp.1 && in_i32 sp.2

def loc_in_range (ls : (Int × Int) × (Int × Int)) : Bool :=
  span_in_range ls.1 && span_in_range ls.2

mutual
/-- Every span component of the node fits in `i32` (automatic for data
produced by the Rust program, whose span fields have type `i32`). -/
def node_in_range : Node → Bool
  | .Container _ _ ls hs fs cs =>
    loc_in_range ls && span_in_range hs && span_in_range fs &&
      forest_in_range cs
  | .Terminal _ _ ls sp => loc_in_range ls && span_in_range sp

def forest_in_range : Forest → Bool
  | .nil => true
  | .cons hd tl => node_in_range hd && forest_in_range tl
end

/-- Every span component of the file record fits in `i32`. -/
def file_in_range (f : SemanticFile) : Bool :=
  loc_in_range f.location_span && span_in_range f.footer_span &&
    forest_in_range f.children

theorem dec_span_span_json {sp : Int × Int} (h : span_in_range sp = true) :
    dec_span (span_json sp) = some sp := by
  simp [span_in_range, in_i32] at h
  simp [dec_span, span_json, in_i32, h]

theorem dec_loc_loc_json {ls : (Int × Int) × (Int × Int)}
    (h : loc_in_range ls = true) : dec_loc (loc_json ls) = some ls := by
  simp [loc_in_range] at h
  simp [dec_loc, loc_json, j_lookup, dec_span_span_json h.1,
    dec_span_span_json h.2]

theorem try_container_encoded (t n : String) (ls : (Int × Int) × (Int × Int))
    (hs fs : Int × Int) (cj : JsonArr) (cs : Forest)
    (hls : loc_in_range ls = true) (hhs : span_in_range hs = true)
    (hfs : span_in_range fs = true) :
    try_container (container_fields t n ls hs fs cj) (some cs) =
      some (.Container t n ls hs fs cs) := by
  simp [try_container, container_fields, j_lookup, dec_str,
    dec_span_span_json hhs, dec_span_span_json hfs, dec_loc_loc_json hls]

theorem try_terminal_encoded (t n : String) (ls : (Int × Int) × (Int × Int))
    (sp : Int × Int) (hls : loc_in_range ls = true)
    (hsp : span_in_range sp = true) :
    try_terminal (terminal_fields t n ls sp) = some (.Terminal t n ls sp) := by
  simp [try_terminal, terminal_fields, j_lookup, dec_str,
    dec_span_span_json hsp, dec_loc_loc_json hls]

theorem container_fields_children (t n : String)
    (ls : (Int × Int) × (Int × Int)) (hs fs : Int × Int) (cj : JsonArr) :
    j_lookup (container_fields t n ls hs fs cj) "children" =
      some (.arr cj) := rfl

theorem terminal_fields_children (t n : String)
    (ls : (Int × Int) × (Int × Int)) (sp : Int × Int) :
    j_lookup (terminal_fields t n ls sp) "children" = none := rfl

mutual
/-- Deserializing a serialized `Node` recovers it (the untagged
discrimination picks the right variant), provided its span values fit
in `i32`. -/
theorem decode_node_encode :
    ∀ (n : Node), node_in_range n = true →
      decode_node (node_to_json n) = some n
  | .Container t nm ls hs fs cs, h => by
    have hr : (loc_in_range ls && span_in_range hs && span_in_range fs &&
        forest_in_range cs) = true := h
    simp only [Bool.and_eq_true] at hr
    rw [node_to_json]
    rw [decode_node]
    simp only [container_fields_children, decode_arr_encode cs hr.2,
      try_container_encoded t nm ls hs fs (forest_to_json cs) cs
        hr.1.1.1 hr.1.1.2 hr.1.2]
  | .Terminal t nm ls sp, h => by
    have hr : (loc_in_range ls && span_in_range sp) = true := h
    simp only [Bool.and_eq_true] at hr
    rw [node_to_json]
    rw [decode_node]
    rw [terminal_fields_children]
    rw [try_terminal_encoded t nm ls sp hr.1 hr.2]

/-- Deserializing a serialized child list recovers it. -/
theorem decode_arr_encode :
    ∀ (cs : Forest), forest_in_range cs = true →
      decode_arr (forest_to_json cs) = some cs
  | .nil, _ => by
    rw [forest_to_json]
    rw [decode_arr]
  | .cons hd tl, h => by
    have hr : (node_in_range hd && forest_in_range tl) = true := h
    simp only [Bool.and_eq_true] at hr
    rw [forest_to_json]
    rw [decode_arr]
    rw [decode_node_encode hd hr.1]
    rw [decode_arr_encode tl hr.2]
end

/-- Deserializing a serialized `SemanticFile` recovers it, except that
the unserializable `Option<()>` distinction collapses to `None`. -/
theorem decode_file_encode (f : SemanticFile) (h : file_in_range f = true) :
    decode_file (file_to_json f) =
      some { f with parsing_error := none } := by
  have hr : (loc_in_range f.location_span && span_in_range f.footer_span &&
      forest_in_range f.children) = true := h
  simp only [Bool.and_eq_true] at hr
  rw [file_to_json]
  rw [decode_file]
  simp only [file_fields, j_lookup]
  simp [dec_loc_loc_json hr.1.1, dec_span_span_json hr.1.2,
    decode_arr_encode f.children hr.2, dec_str, dec_bool]

theorem walk_tree_mk_none {k t : String} {sp ep : TSPoint} {sb eb : Nat}
    {cs : RawForest} (hname : extract_name k t = none) :
    walk_tree (.mk k t sp ep sb eb cs) = none := by
  rw [walk_tree, hname]

theorem walk_tree_mk_some {k t : String} {sp ep : TSPoint} {sb eb : Nat}
    {cs : RawForest} {nm : String} (hname : extract_name k t = some nm) :
    walk_tree (.mk k t sp ep sb eb cs) =
      if cs.length = 0 then
        some (.Terminal k nm (convert_point sp, convert_point ep)
          (to_i32 sb, to_i32 eb))
      else
        some (.Container k nm (convert_point sp, convert_point ep)
          (to_i32 sb, to_i32 eb) (0, -1) (walk_children cs)) := by
  rw [walk_tree, hname]

/-- The child loop keeps, in source order, exactly the children whose
normalization succeeded. -/
theorem walk_children_toList :
    ∀ cs : RawForest, (walk_children cs).toList = cs.toList.filterMap walk_tree
  | .nil => rfl
  | .cons hd tl => by
    rw [walk_children, RawForest.toList, List.filterMap_cons]
    cases h : walk_tree hd with
    | none => simpa using walk_children_toList tl
    | some child => simpa [Forest.toList] using walk_children_toList tl

/-- If every child's normalization fails, the child loop returns the
empty vector. -/
theorem walk_children_nil_of_all_none :
    ∀ cs : RawForest, (∀ c ∈ cs.toList, walk_tree c = none) →
      walk_children cs = .nil
  | .nil, _ => rfl
  | .cons hd tl, h => by
    rw [walk_children]
    rw [h hd (by simp [RawForest.toList])]
    exact walk_children_nil_of_all_none tl
      (fun c hc => h c (by simp [RawForest.toList, hc]))

theorem split_any_ws_head :
    ∀ r : List Char, ∃ gs,
      split_any rust_is_whitespace r = take_tok r :: gs
  | [] => ⟨[], rfl⟩
  | c :: r => by
    rw [split_any, take_tok]
    by_cases hc : rust_is_whitespace c
    · exact ⟨split_any rust_is_whitespace r, by simp [hc]⟩
    · obtain ⟨gs, hgs⟩ := split_any_ws_head r
      exact ⟨gs, by simp [hc, hgs]⟩

theorem first_token_aux :
    ∀ l : List Char,
      (match drop_ws l with
       | [] => none
       | c :: r => some (String.mk (c :: take_tok r))) =
      ((((split_any rust_is_whitespace l).filter
          (fun t => t ≠ [])).head?).map (fun t => String.mk t)) := by
  intro l
  induction l with
  | nil => rfl
  | cons c r ih =>
    rw [drop_ws, split_any]
    by_cases hc : rust_is_whitespace c
    · simpa [hc] using ih
    · obtain ⟨gs, hgs⟩ := split_any_ws_head r
      simp [hc, hgs, take_tok]

/-- The implementation's first-token scan agrees with the spec's
formulation: split on whitespace and take the first non-empty token. -/
theorem first_token_spec (s : String) : first_token s = spec_first_token s := by
  rw [first_token, spec_first_token]
  exact first_token_aux s.data

/- Concrete nodes used by counterexamples and witnesses. -/

/-- A leaf whose name extraction fails: kind contains `"identifier"`
but no token survives stripping `#`. -/
def bad_leaf : RawNode := .mk "identifier" "##" ⟨0, 1⟩ ⟨0, 3⟩ 1 3 .nil

/-- A leaf whose name extraction succeeds. -/
def good_leaf : RawNode := .mk "identifier" "x" ⟨0, 1⟩ ⟨0, 2⟩ 1 2 .nil

/-- A node whose single named child fails normalization. -/
def empty_parent : RawNode :=
  .mk "block" "(##)" ⟨0, 0⟩ ⟨0, 4⟩ 0 4 (.cons bad_leaf .nil)

/-- A node containing `empty_parent` as its single named child. -/
def outer_node : RawNode :=
  .mk "block" "((##))" ⟨0, 0⟩ ⟨0, 6⟩ 0 6 (.cons empty_parent .nil)

/-- A node with two named children, one failing and one surviving. -/
def two_child_node : RawNode :=
  .mk "block" "(## x)" ⟨0, 0⟩ ⟨0, 6⟩ 0 6
    (.cons bad_leaf (.cons good_leaf .nil))

/-- A root with one named child, as the parser yields for text `"x"`. -/
def sample_root : RawNode :=
  .mk "source_file" "x" ⟨0, 0⟩ ⟨0, 1⟩ 0 1
    (.cons (.mk "expression_statement" "x" ⟨0, 0⟩ ⟨0, 1⟩ 0 1 .nil) .nil)

/-- The outline file produced for `sample_root` from text `"x"`. -/
def sample_file : SemanticFile :=
  { item_type := "file"
    name := "in.rs"
    location_span := ((1, 0), (1, 1))
    footer_span := (0, -1)
    parsing_errors_detected := false
    children :=
      .cons (.Terminal "expression_statement" "expression_statement"
        ((1, 0), (1, 1)) (0, 1)) .nil
    parsing_error := none }

/-- C1 counterexample: the claim is false on the code.  `empty_parent`
has one named child (`bad_leaf`) whose normalization fails, yet it is
not dropped by its parent: the produced outline (both under
`outer_node` and in a full file conversion rooted at `outer_node`)
retains it as a `Container` with an empty child vector, because the
child loop in `walk_tree` pushes every `Ok` child and a would-be
container whose children all failed is still `Ok`. -/
theorem C1_counterexample :
    (empty_parent.children.length = 1 ∧ walk_tree bad_leaf = none) ∧
    walk_tree outer_node =
      some (.Container "block" "block" ((1, 0), (1, 6)) (0, 6) (0, -1)
        (.cons (.Container "block" "block" ((1, 0), (1, 4)) (0, 4) (0, -1)
          .nil) .nil)) ∧
    convert_file "in.rs" "((##))" outer_node =
      some
        { item_type := "file"
          name := "in.rs"
          location_span := ((1, 0), (1, 6))
          footer_span := (0, -1)
          parsing_errors_detected := false
          children :=
            .cons (.Container "block" "block" ((1, 0), (1, 4)) (0, 4) (0, -1)
              .nil) .nil
          parsing_error := none } :=
  ⟨⟨rfl, rfl⟩, rfl, rfl⟩

/-- C1 amended: a node with one or more named children whose every
child's normalization failed is retained by its parent as a `Container`
with an empty child vector (its own normalization succeeds), rather
than being dropped; Containers in the output can therefore be empty. -/
theorem C1_empty_container_retained (n : RawNode) (nm : String)
    (hname : extract_name n.kind n.text = some nm)
    (hne : n.children.length ≠ 0)
    (hall : ∀ c ∈ n.children.toList, walk_tree c = none) :
    walk_tree n =
      some (.Container n.kind nm
        (convert_point n.start_pos, convert_point n.end_pos)
        (to_i32 n.start_byte, to_i32 n.end_byte) (0, -1) .nil) := by
  obtain ⟨k, t, sp, ep, sb, eb, cs⟩ := n
  simp only [RawNode.kind, RawNode.text, RawNode.children,
    RawNode.start_pos, RawNode.end_pos, RawNode.start_byte,
    RawNode.end_byte] at hname hne hall ⊢
  rw [walk_tree_mk_some hname, if_neg hne,
    walk_children_nil_of_all_none cs hall]

/-- C1 amended, witness at `empty_parent`. -/
theorem C1_empty_container_retained_witness :
    walk_tree empty_parent =
      some (.Container "block" "block" ((1, 0), (1, 4)) (0, 4) (0, -1)
        .nil) :=
  C1_empty_container_retained empty_parent "block" rfl
    (by decide)
    (fun c hc => by
      have hcb : c = bad_leaf := by
        simpa [empty_parent, RawNode.children, RawForest.toList] using hc
      subst hcb
      exact rfl)

/-- C2: the claim is wrong about the code — converting an empty input
text never succeeds.  `file_contents.lines().last().unwrap()` panics
(`lines()` of an empty text is an empty iterator), so the conversion
dies before an `OutlineFile` can be produced, for every parse tree. -/
theorem C2_empty_input_panics (path : String) (tree : RawNode) :
    convert_file path "" tree = none := rfl

/-- C3: for a node with exactly two named children of which exactly one
fails extraction, the resulting Container keeps exactly the surviving
sibling. -/
theorem C3_failing_child_dropped (n a b : RawNode) (y : Node) (nm : String)
    (hch : n.children = .cons a (.cons b .nil))
    (hname : extract_name n.kind n.text = some nm)
    (hone : (walk_tree a = none ∧ walk_tree b = some y) ∨
      (walk_tree a = some y ∧ walk_tree b = none)) :
    walk_tree n =
      some (.Container n.kind nm
        (convert_point n.start_pos, convert_point n.end_pos)
        (to_i32 n.start_byte, to_i32 n.end_byte) (0, -1)
        (.cons y .nil)) := by
  obtain ⟨k, t, sp, ep, sb, eb, cs⟩ := n
  simp only [RawNode.kind, RawNode.text, RawNode.children,
    RawNode.start_pos, RawNode.end_pos, RawNode.start_byte,
    RawNode.end_byte] at hch hname ⊢
  subst hch
  rw [walk_tree_mk_some hname]
  rw [if_neg (by simp [RawForest.length])]
  rcases hone with ⟨ha, hb⟩ | ⟨ha, hb⟩ <;>
    simp [walk_children, ha, hb]

/-- C3 witness: `two_child_node` has children `bad_leaf` (fails) and
`good_leaf` (survives); exactly the sibling remains. -/
theorem C3_failing_child_dropped_witness :
    walk_tree two_child_node =
      some (.Container "block" "block" ((1, 0), (1, 6)) (0, 6) (0, -1)
        (.cons (.Terminal "identifier" "x" ((1, 1), (1, 2)) (1, 2)) .nil)) :=
  C3_failing_child_dropped two_child_node bad_leaf good_leaf
    (.Terminal "identifier" "x" ((1, 1), (1, 2)) (1, 2)) "block"
    rfl rfl (Or.inl ⟨rfl, rfl⟩)

/-- C4: a successful normalization yields a Terminal exactly when the
named-child count is zero, with span (start byte, end byte); otherwise
a Container with header span (start byte, end byte), sentinel footer
span (0, -1), and as children the recursively normalized named children
in source order (the successful ones, via `filterMap`). -/
theorem C4_terminal_vs_container (n : RawNode) (o : Node)
    (h : walk_tree n = some o) :
    ∃ nm, extract_name n.kind n.text = some nm ∧
      ((n.children.length = 0 ∧
        o = .Terminal n.kind nm
          (convert_point n.start_pos, convert_point n.end_pos)
          (to_i32 n.start_byte, to_i32 n.end_byte)) ∨
       (n.children.length ≠ 0 ∧
        o = .Container n.kind nm
          (convert_point n.start_pos, convert_point n.end_pos)
          (to_i32 n.start_byte, to_i32 n.end_byte) (0, -1)
          (walk_children n.children) ∧
        (walk_children n.children).toList =
          n.children.toList.filterMap walk_tree)) := by
  obtain ⟨k, t, sp, ep, sb, eb, cs⟩ := n
  simp only [RawNode.kind, RawNode.text, RawNode.children,
    RawNode.start_pos, RawNode.end_pos, RawNode.start_byte,
    RawNode.end_byte] at h ⊢
  cases hname : extract_name k t with
  | none => rw [walk_tree_mk_none hname] at h; cases h
  | some nm =>
    rw [walk_tree_mk_some hname] at h
    refine ⟨nm, rfl, ?_⟩
    by_cases hl : cs.length = 0
    · rw [if_pos hl] at h
      cases h
      exact Or.inl ⟨hl, rfl⟩
    · rw [if_neg hl] at h
      cases h
      exact Or.inr ⟨hl, rfl, walk_children_toList cs⟩

/-- C4 witness at the childless node `good_leaf`. -/
theorem C4_terminal_vs_container_witness :
    ∃ nm, extract_name good_leaf.kind good_leaf.text = some nm ∧
      ((good_leaf.children.length = 0 ∧
        (Node.Terminal "identifier" "x" ((1, 1), (1, 2)) (1, 2)) =
          .Terminal good_leaf.kind nm
            (convert_point good_leaf.start_pos, convert_point good_leaf.end_pos)
            (to_i32 good_leaf.start_byte, to_i32 good_leaf.end_byte)) ∨
       (good_leaf.children.length ≠ 0 ∧
        (Node.Terminal "identifier" "x" ((1, 1), (1, 2)) (1, 2)) =
          .Container good_leaf.kind nm
            (convert_point good_leaf.start_pos, convert_point good_leaf.end_pos)
            (to_i32 good_leaf.start_byte, to_i32 good_leaf.end_byte) (0, -1)
            (walk_children good_leaf.children) ∧
        (walk_children good_leaf.children).toList =
          good_leaf.children.toList.filterMap walk_tree)) :=
  C4_terminal_vs_container good_leaf
    (.Terminal "identifier" "x" ((1, 1), (1, 2)) (1, 2)) rfl

/-- C5: the root node is never emitted — a successful conversion's
children are exactly the root Container's children — and a root whose
own normalization fails makes the whole file conversion fail. -/
theorem C5_root_is_traversal_anchor (path contents : String)
    (tree : RawNode) :
    (walk_tree tree = none → convert_file path contents tree = none) ∧
    (∀ f, convert_file path contents tree = some f →
      ∃ t n ls hs fsp cs,
        walk_tree tree = some (.Container t n ls hs fsp cs) ∧
        f.children = cs) := by
  constructor
  · intro hw
    rw [convert_file]
    cases (rust_lines contents).getLast? with
    | none => rfl
    | some last_line => simp [hw]
  · intro f hf
    rw [convert_file] at hf
    cases hl : (rust_lines contents).getLast? with
    | none => rw [hl] at hf; cases hf
    | some last_line =>
      rw [hl] at hf
      cases hw : walk_tree tree with
      | none => rw [hw] at hf; cases hf
      | some o =>
        rw [hw] at hf
        cases o with
        | Terminal t n ls sp => cases hf
        | Container t n ls hs fsp cs =>
          cases hf
          exact ⟨t, n, ls, hs, fsp, cs, rfl, rfl⟩

/-- C5 witness: a failing root (`bad_leaf`) fails the whole conversion,
and a successful conversion (`sample_root` over text `"x"`) promotes
the root Container's children. -/
theorem C5_root_is_traversal_anchor_witness :
    convert_file "in.rs" "x" bad_leaf = none ∧
    ∃ t n ls hs fsp cs,
      walk_tree sample_root = some (.Container t n ls hs fsp cs) ∧
      sample_file.children = cs :=
  ⟨(C5_root_is_traversal_anchor "in.rs" "x" bad_leaf).1 rfl,
   (C5_root_is_traversal_anchor "in.rs" "x" sample_root).2 sample_file rfl⟩

/-- C6: for kinds containing `"identifier"` or `"item"`, the display
name is the first whitespace-separated token of the text after the
fixed strip (stated through the spec's split-on-whitespace
formulation); in particular `"fn foo(x: i32)"` yields `"foo"`. -/
theorem C6_name_extraction_heuristic :
    (∀ kind text,
      (contains_sub kind "identifier" = true ∨
        contains_sub kind "item" = true) →
      extract_name kind text = spec_first_token (strip_name_text text)) ∧
    extract_name "identifier" "fn foo(x: i32)" = some "foo" := by
  constructor
  · intro kind text h
    rw [extract_name]
    have hb : (contains_sub kind "identifier" ||
        contains_sub kind "item") = true := by
      rcases h with h | h <;> simp [h]
    rw [if_pos hb]
    exact first_token_spec _
  · rfl

/-- C6 witness at kind `"identifier"`, text `"fn foo(x: i32)"`. -/
theorem C6_name_extraction_heuristic_witness :
    extract_name "identifier" "fn foo(x: i32)" =
      spec_first_token (strip_name_text "fn foo(x: i32)") :=
  C6_name_extraction_heuristic.1 "identifier" "fn foo(x: i32)" (Or.inl rfl)

/-- C7: name extraction fails exactly when the kind contains
`"identifier"` or `"item"` and no token survives stripping; for any
other kind it returns the kind label itself; `"##"` under kind
`"identifier"` fails. -/
theorem C7_extraction_failure_characterization :
    (∀ kind text,
      extract_name kind text = none ↔
        ((contains_sub kind "identifier" = true ∨
          contains_sub kind "item" = true) ∧
         first_token (strip_name_text text) = none)) ∧
    (∀ kind text, contains_sub kind "identifier" = false →
      contains_sub kind "item" = false →
      extract_name kind text = some kind) ∧
    extract_name "identifier" "##" = none := by
  refine ⟨?_, ?_, rfl⟩
  · intro kind text
    rw [extract_name]
    cases h1 : contains_sub kind "identifier" <;>
      cases h2 : contains_sub kind "item" <;> simp
  · intro kind text h1 h2
    rw [extract_name]
    simp [h1, h2]

/-- C7 witness: a kind containing neither substring names the node
after its kind. -/
theorem C7_extraction_failure_characterization_witness :
    extract_name "block" "zzz" = some "block" :=
  C7_extraction_failure_characterization.2.1 "block" "zzz" rfl rfl

/-- C8: every successful conversion reports
`parsingErrorsDetected = false`, regardless of absorbed per-node
failures. -/
theorem C8_flag_always_false (path contents : String) (tree : RawNode)
    (f : SemanticFile) (h : convert_file path contents tree = some f) :
    f.parsing_errors_detected = false := by
  rw [convert_file] at h
  cases hl : (rust_lines contents).getLast? with
  | none => rw [hl] at h; cases h
  | some last_line =>
    rw [hl] at h
    cases hw : walk_tree tree with
    | none => rw [hw] at h; cases h
    | some o =>
      rw [hw] at h
      cases o with
      | Terminal t n ls sp => cases h
      | Container t n ls hs fsp cs => cases h; rfl

/-- C8 witness at the successful conversion of `sample_root`. -/
theorem C8_flag_always_false_witness :
    sample_file.parsing_errors_detected = false :=
  C8_flag_always_false "in.rs" "x" sample_root sample_file rfl

/-- C9: serializing an `OutlineFile`, deserializing the document, and
serializing again yields a byte-identical document; deserialization
recovers the file itself (up to the unserializable `Option<()>`
distinction), re-discriminating the untagged variants by field shape. -/
theorem C9_serialization_roundtrip (f : SemanticFile)
    (h : file_in_range f = true) :
    ∃ g, decode_file (file_to_json f) = some g ∧
      to_string_pretty (file_to_json g) = to_string_pretty (file_to_json f) :=
  ⟨{ f with parsing_error := none }, decode_file_encode f h, rfl⟩

/-- C9 witness at `sample_file`. -/
theorem C9_serialization_roundtrip_witness :
    file_in_range sample_file = true ∧
    ∃ g, decode_file (file_to_json sample_file) = some g ∧
      to_string_pretty (file_to_json g) =
        to_string_pretty (file_to_json sample_file) :=
  ⟨rfl, C9_serialization_roundtrip sample_file rfl⟩

/-- C10: normalization of a node whose kind contains neither
`"identifier"` nor `"item"` always succeeds — name extraction is the
only failure source and child failures are filtered, not propagated. -/
theorem C10_other_kinds_never_fail (n : RawNode)
    (h1 : contains_sub n.kind "identifier" = false)
    (h2 : contains_sub n.kind "item" = false) :
    (walk_tree n).isSome = true := by
  obtain ⟨k, t, sp, ep, sb, eb, cs⟩ := n
  simp only [RawNode.kind] at h1 h2
  have hname : extract_name k t = some k := by
    rw [extract_name]
    simp [h1, h2]
  rw [walk_tree_mk_some hname]
  split <;> rfl

/-- C10 witness at `empty_parent` (kind `"block"`), whose only child
fails yet whose own normalization succeeds. -/
theorem C10_other_kinds_never_fail_witness :
    (walk_tree empty_parent).isSome = true :=
  C10_other_kinds_never_fail empty_parent rfl rfl

end SemanticMerge
